import Mathlib

/-!
Verification development for the BBB node deregistration lambda (the
`handler` in the repository's Scalelite-deregistration function).

The lambda is embedded shallowly: every external interaction (Secrets
Manager, EC2 DescribeInstances, the Scalelite HTTP API, the
CompleteLifecycleAction call) is represented by its response, packaged in
an `Env` record, and the handler becomes a pure function from `Env` and
the incoming event to a final `LifecycleActionResult` string together
with the ordered trace of outbound calls it performed.  JavaScript
truthiness on optional strings, the try/catch/finally structure, and the
exact branch conditions are translated directly from the source.
-/

/-! ### SHA-1 (the algorithm behind createHash('sha1')), over byte lists -/

def w32 (n : Nat) : Nat := n % 4294967296

def rotl (b n : Nat) : Nat :=
  w32 (Nat.lor (Nat.shiftLeft n b) (Nat.shiftRight n (32 - b)))

def toBytesBE : Nat → Nat → List Nat
  | 0, _ => []
  | k + 1, n => toBytesBE k (n / 256) ++ [n % 256]

def sha1Pad (msg : List Nat) : List Nat :=
  msg ++ [128] ++ List.replicate ((119 - msg.length % 64) % 64) 0 ++ toBytesBE 8 (msg.length * 8)

def bytesToWords : List Nat → List Nat
  | b0 :: b1 :: b2 :: b3 :: rest => (((b0 * 256 + b1) * 256 + b2) * 256 + b3) :: bytesToWords rest
  | _ => []

def chunksOf16Fuel : Nat → List Nat → List (List Nat)
  | 0, _ => []
  | _, [] => []
  | fuel + 1, w :: ws => ((w :: ws).take 16) :: chunksOf16Fuel fuel ((w :: ws).drop 16)

def chunksOf16 (ws : List Nat) : List (List Nat) :=
  chunksOf16Fuel ws.length ws

def extendWordsRev : Nat → List Nat → List Nat
  | 0, acc => acc
  | k + 1, acc =>
    extendWordsRev k
      (rotl 1 (Nat.xor (Nat.xor (acc.getD 2 0) (acc.getD 7 0))
                (Nat.xor (acc.getD 13 0) (acc.getD 15 0))) :: acc)

def sha1F (i b c d : Nat) : Nat :=
  if i < 20 then Nat.lor (Nat.land b c) (Nat.land (4294967295 - b) d)
  else if i < 40 then Nat.xor (Nat.xor b c) d
  else if i < 60 then Nat.lor (Nat.lor (Nat.land b c) (Nat.land b d)) (Nat.land c d)
  else Nat.xor (Nat.xor b c) d

def sha1K (i : Nat) : Nat :=
  if i < 20 then 0x5A827999
  else if i < 40 then 0x6ED9EBA1
  else if i < 60 then 0x8F1BBCDC
  else 0xCA62C1D6

structure Sha1State where
  h0 : Nat
  h1 : Nat
  h2 : Nat
  h3 : Nat
  h4 : Nat

def sha1Chunk (st : Sha1State) (chunk : List Nat) : Sha1State :=
  let ws := (extendWordsRev 64 chunk.reverse).reverse
  let step := fun (s : Nat × Nat × Nat × Nat × Nat × Nat) (w : Nat) =>
    let (i, a, b, c, d, e) := s
    let temp := w32 (rotl 5 a + sha1F i b c d + e + sha1K i + w)
    (i + 1, temp, a, rotl 30 b, c, d)
  let r := ws.foldl step (0, st.h0, st.h1, st.h2, st.h3, st.h4)
  ⟨w32 (st.h0 + r.2.1), w32 (st.h1 + r.2.2.1), w32 (st.h2 + r.2.2.2.1),
   w32 (st.h3 + r.2.2.2.2.1), w32 (st.h4 + r.2.2.2.2.2)⟩

def sha1Bytes (msg : List Nat) : List Nat :=
  let chunks := chunksOf16 (bytesToWords (sha1Pad msg))
  let st := chunks.foldl sha1Chunk ⟨0x67452301, 0xEFCDAB89, 0x98BADCFE, 0x10325476, 0xC3D2E1F0⟩
  toBytesBE 4 st.h0 ++ toBytesBE 4 st.h1 ++ toBytesBE 4 st.h2 ++ toBytesBE 4 st.h3 ++ toBytesBE 4 st.h4

def hexDigitChar (n : Nat) : Char :=
  if n < 10 then Char.ofNat (48 + n) else Char.ofNat (87 + n)

def byteToHex (b : Nat) : String :=
  String.mk [hexDigitChar (b / 16), hexDigitChar (b % 16)]

def bytesToHex (bs : List Nat) : String :=
  String.join (bs.map byteToHex)

def strBytes (s : String) : List Nat :=
  s.data.flatMap (fun c => (String.utf8EncodeChar c).map UInt8.toNat)

/-- Hex-encoded SHA-1 digest of the UTF-8 bytes of a string; this is what
`createHash('sha1').update(s).digest('hex')` computes in the source. -/
def sha1Hex (s : String) : String :=
  bytesToHex (sha1Bytes (strBytes s))

/-! ### URLSearchParams serialization (application/x-www-form-urlencoded) -/

def percentHexDigit (n : Nat) : Char :=
  if n < 10 then Char.ofNat (48 + n) else Char.ofNat (55 + n)

def percentEncodeByte (b : Nat) : List Char :=
  ['%', percentHexDigit (b / 16), percentHexDigit (b % 16)]

def formSafeChar (c : Char) : Bool :=
  (97 ≤ c.toNat && c.toNat ≤ 122) || (65 ≤ c.toNat && c.toNat ≤ 90) ||
    (48 ≤ c.toNat && c.toNat ≤ 57) || c == '*' || c == '-' || c == '.' || c == '_'

def formEncodeChar (c : Char) : List Char :=
  if c == ' ' then ['+']
  else if formSafeChar c then [c]
  else ((String.utf8EncodeChar c).map UInt8.toNat).flatMap percentEncodeByte

def formEncode (s : String) : String :=
  String.mk (s.data.flatMap formEncodeChar)

/-! ### getSortedQueryString and calculateChecksum (part_001 lines 56-73)

A JavaScript object of query parameters is embedded as an association
list whose keys are pairwise distinct (objects cannot repeat a key).
`Object.keys(queryParams).sort()` becomes an insertion sort of the key
list under the string order, and `queryParams[key]` becomes an
association-list lookup. -/

def lookupParam (queryParams : List (String × String)) (key : String) : String :=
  match queryParams.find? (fun kv => kv.1 == key) with
  | some kv => kv.2
  | none => ""

def getSortedQueryString (queryParams : List (String × String)) : String :=
  if queryParams.isEmpty then ""
  else
    let sortedKeys := (queryParams.map Prod.fst).insertionSort (fun a b => a ≤ b)
    String.intercalate "&"
      (sortedKeys.map (fun key => formEncode key ++ "=" ++ formEncode (lookupParam queryParams key)))

def calculateChecksum (action queryParamsString requestBodyString sharedSecret : String) : String :=
  sha1Hex (action ++ queryParamsString ++ requestBodyString ++ sharedSecret)

def GET_SERVERS_ACTION : String := "getServers"

def DELETE_SERVER_ACTION : String := "deleteServer"

/-! ### Data model of the event and of the external responses -/

/-- The SNS message body, after JSON.parse.  A field the JSON object does
not carry is `none` (JavaScript `undefined`). -/
structure SNSEventRecordMessage where
  EC2InstanceId : Option String
  LifecycleHookName : Option String
  AutoScalingGroupName : Option String
deriving DecidableEq

/-- One record of the event.  `message` is the result of evaluating
`record.Sns.Message` and passing it to `JSON.parse`: an `Except.error`
stands for any exception thrown there (missing `Sns`, missing `Message`,
or a malformed JSON string). -/
structure SnsRecord where
  message : Except String SNSEventRecordMessage

/-- The incoming lambda event: its `Records` array.  A missing or empty
`Records` makes `event.Records[0].Sns` throw. -/
structure LambdaEvent where
  records : List SnsRecord

/-- Evaluation of lines 79-84 of the source, which run before the
`try` block: extract and parse `event.Records[0].Sns.Message`. -/
def parseEvent (event : LambdaEvent) : Except String SNSEventRecordMessage :=
  match event.records with
  | [] => Except.error "TypeError: cannot read Records[0].Sns of undefined"
  | r :: _ => r.message

/-- JavaScript truthiness test used by the source on optional strings:
`!x` is true exactly when the field is absent or the empty string. -/
def jsFalsy : Option String → Bool
  | none => true
  | some s => s == ""

/-- One server row of the getServers response (source interface
`ScaleliteServer`). -/
structure ScaleliteServer where
  id : String
  server_id : String
  url : String
  secret : String
deriving DecidableEq

structure Ec2Instance where
  PrivateDnsName : Option String
deriving DecidableEq

structure Ec2Reservation where
  Instances : Option (List Ec2Instance)
deriving DecidableEq

structure Ec2Output where
  Reservations : Option (List Ec2Reservation)
deriving DecidableEq

/-- Result of JSON.parse on the SecretString: either the parse throws, or
it yields an object whose `secret` key may be absent. -/
inductive SecretStringParse where
  | malformed
  | parsed (secret : Option String)
deriving DecidableEq

structure SecretValueOutput where
  SecretString : Option SecretStringParse
deriving DecidableEq

structure GetServersData where
  status : Option String
  servers : Option (List ScaleliteServer)
deriving DecidableEq

structure GetServersResponse where
  status : Nat
  data : GetServersData
deriving DecidableEq

/-- Body of a deleteServer response: a JSON object (with its optional
`status` field) or a raw string body (the legacy XML-ish format). -/
inductive DeleteResponseData where
  | obj (status : Option String)
  | str (s : String)
deriving DecidableEq

structure DeleteResponse where
  status : Nat
  data : DeleteResponseData
deriving DecidableEq

/-- An exception thrown by the axios post to deleteServer, carrying
`axios.isAxiosError` and `error.response?.status`. -/
structure DeleteCallError where
  isAxiosError : Bool
  responseStatus : Option Nat
deriving DecidableEq

/-- Responses of the external world for one invocation: each field is
what the corresponding awaited call returns, `Except.error` standing for
a thrown exception. -/
structure Env where
  SCALELITE_API_BASE_URL : String
  secretFetch : Except String SecretValueOutput
  describeInstances : Except String Ec2Output
  getServers : Except String GetServersResponse
  deleteServer : Except DeleteCallError DeleteResponse
  completeLifecycle : Except String Unit

/-- Outbound calls the handler performs, in order. -/
inductive Effect where
  | getServersCall (url : String)
  | deleteServerCall (url : String) (body : String)
  | reportCall (result : String)
deriving DecidableEq

def Effect.isRegistryCall : Effect → Bool
  | Effect.getServersCall _ => true
  | Effect.deleteServerCall _ _ => true
  | Effect.reportCall _ => false

def Effect.isDeleteCall : Effect → Bool
  | Effect.deleteServerCall _ _ => true
  | _ => false

def Effect.isReportCall : Effect → Bool
  | Effect.reportCall _ => true
  | _ => false

/-- Observable result of one handler invocation: either an exception
escaped the handler uncaught (before the try block), or the handler ran
to completion with a final LifecycleActionResult and a trace of calls. -/
inductive HandlerResult where
  | uncaught (err : String)
  | completed (result : String) (trace : List Effect)
deriving DecidableEq

def HandlerResult.outcome : HandlerResult → Option String
  | HandlerResult.uncaught _ => none
  | HandlerResult.completed r _ => some r

def HandlerResult.effects : HandlerResult → List Effect
  | HandlerResult.uncaught _ => []
  | HandlerResult.completed _ tr => tr

/-! ### The handler body (part_001 lines 76-238), step by step

The source is one sequential try block; it is split here at its numbered
section comments into one definition per external interaction, each
tail-calling the next.  Each step returns the registry calls performed so
far together with `Except.ok result` (the try block ran to its end with
the given value of `lifecycleActionResult`) or `Except.error e` (the try
block threw and the outer catch will leave the default 'ABANDON'). -/

/-- The client-side scan of the getServers rows (lines 155-162): first
entry whose `url` is strictly equal (`===`) to the constructed API URL. -/
def findServerId (servers : List ScaleliteServer) (bbbServerApiUrl : String) : Option String :=
  match servers with
  | [] => none
  | server :: rest =>
    if server.url == bbbServerApiUrl then some server.id
    else findServerId rest bbbServerApiUrl

/-- JSON string escaping as performed by JSON.stringify. -/
def jsonEscapeChar (c : Char) : List Char :=
  if c == '"' then ['\\', '"']
  else if c == '\\' then ['\\', '\\']
  else if c.toNat == 8 then ['\\', 'b']
  else if c.toNat == 12 then ['\\', 'f']
  else if c == '\n' then ['\\', 'n']
  else if c.toNat == 13 then ['\\', 'r']
  else if c == '\t' then ['\\', 't']
  else if c.toNat < 32 then ['\\', 'u', '0', '0', hexDigitChar (c.toNat / 16), hexDigitChar (c.toNat % 16)]
  else [c]

def jsonStringOfString (s : String) : String :=
  "\"" ++ String.mk (s.data.flatMap jsonEscapeChar) ++ "\""

/-- `JSON.stringify({id: scaleliteInternalServerId})` (line 171). -/
def deleteBodyString (scaleliteInternalServerId : String) : String :=
  "\x7b\"id\":" ++ jsonStringOfString scaleliteInternalServerId ++ "\x7d"

/-- URL construction of lines 144 and 175:
`${base}/${action}?${qs ? qs + '&' : ''}checksum=${checksum}`. -/
def buildApiUrl (base action queryString checksum : String) : String :=
  base ++ "/" ++ action ++ "?" ++ (if queryString == "" then "" else queryString ++ "&") ++
    "checksum=" ++ checksum

/-- Substring test over character lists, used to embed
`String.prototype.includes`. -/
def listContains (pat : List Char) : List Char → Bool
  | [] => pat.isPrefixOf ([] : List Char)
  | c :: rest => pat.isPrefixOf (c :: rest) || listContains pat rest

/-- `s.includes(pat)` of the source (line 196). -/
def strIncludes (s pat : String) : Bool :=
  listContains pat.data s.data

/-- Judgment of a deleteServer HTTP response that arrived without an
exception (lines 193-203): 200 with JSON `status: "ok"`, or 200 with a
string body containing `<returncode>SUCCESS</returncode>`, otherwise the
result keeps its default 'ABANDON'. -/
def deleteServerOutcome (resp : DeleteResponse) : String :=
  match resp.data with
  | DeleteResponseData.obj st =>
    if resp.status == 200 && st == some "ok" then "CONTINUE" else "ABANDON"
  | DeleteResponseData.str s =>
    if resp.status == 200 && strIncludes s "<returncode>SUCCESS</returncode>" then "CONTINUE"
    else "ABANDON"

/-- Section 4 of the source (lines 168-214): the deleteServer call and
its inner try/catch. -/
def deleteStep (env : Env) (sharedSecret scaleliteInternalServerId : String)
    (fx1 : List Effect) : List Effect × Except String String :=
  let body := deleteBodyString scaleliteInternalServerId
  let deleteServerQueryString := getSortedQueryString []
  let deleteChecksum := calculateChecksum DELETE_SERVER_ACTION deleteServerQueryString body sharedSecret
  let deleteUrl := buildApiUrl env.SCALELITE_API_BASE_URL DELETE_SERVER_ACTION deleteServerQueryString deleteChecksum
  let fx2 := fx1 ++ [Effect.deleteServerCall deleteUrl body]
  match env.deleteServer with
  | Except.ok resp => (fx2, Except.ok (deleteServerOutcome resp))
  | Except.error e =>
    if e.isAxiosError && e.responseStatus == some 404 then (fx2, Except.ok "CONTINUE")
    else (fx2, Except.error "deleteServer request failed")

/-- Section 3 of the source (lines 136-166): the signed getServers call,
the response validation, and the client-side match. -/
def registryStep (env : Env) (sharedSecret bbbServerApiUrl : String) :
    List Effect × Except String String :=
  let getServersQueryString := getSortedQueryString []
  let getServersChecksum := calculateChecksum GET_SERVERS_ACTION getServersQueryString "" sharedSecret
  let getServersUrl := buildApiUrl env.SCALELITE_API_BASE_URL GET_SERVERS_ACTION getServersQueryString getServersChecksum
  let fx1 := [Effect.getServersCall getServersUrl]
  match env.getServers with
  | Except.error _ => (fx1, Except.error "getServers request failed")
  | Except.ok resp =>
    if resp.status != 200 || resp.data.status != some "ok" || resp.data.servers.isNone then
      (fx1, Except.error "Failed to fetch servers from Scalelite or unexpected response format.")
    else
      match findServerId (resp.data.servers.getD []) bbbServerApiUrl with
      | none => (fx1, Except.ok "CONTINUE")
      | some scaleliteInternalServerId => deleteStep env sharedSecret scaleliteInternalServerId fx1

/-- Section 2 of the source (lines 114-133): DescribeInstances and the
construction of the BBB server API URL from the PrivateDnsName. -/
def ec2Step (env : Env) (sharedSecret : String) : List Effect × Except String String :=
  match env.describeInstances with
  | Except.error _ => ([], Except.error "DescribeInstances threw")
  | Except.ok out =>
    match out.Reservations with
    | none => ([], Except.error "Instance details not found.")
    | some [] => ([], Except.error "Instance details not found.")
    | some (res0 :: _) =>
      match res0.Instances with
      | none => ([], Except.error "Instance details not found.")
      | some [] => ([], Except.error "Instance details not found.")
      | some (inst0 :: _) =>
        if jsFalsy inst0.PrivateDnsName then ([], Except.error "PrivateDnsName not found.")
        else
          registryStep env sharedSecret
            ("http://" ++ inst0.PrivateDnsName.getD "" ++ "/bigbluebutton/api")

/-- Section 1 of the source (lines 98-112): GetSecretValue and the
extraction of the `secret` key from the parsed SecretString. -/
def secretStep (env : Env) : List Effect × Except String String :=
  match env.secretFetch with
  | Except.error e => ([], Except.error e)
  | Except.ok out =>
    match out.SecretString with
    | none => ([], Except.error "Failed to retrieve valid secret from Secrets Manager.")
    | some SecretStringParse.malformed => ([], Except.error "SyntaxError in JSON.parse of SecretString")
    | some (SecretStringParse.parsed secretOpt) =>
      if jsFalsy secretOpt then ([], Except.error "Invalid secret format from Secrets Manager.")
      else ec2Step env (secretOpt.getD "")

/-- The whole try block (lines 88-216), starting with the field checks on
the parsed SNS message. -/
def tryBody (env : Env) (msg : SNSEventRecordMessage) : List Effect × Except String String :=
  if jsFalsy msg.EC2InstanceId then ([], Except.error "EC2InstanceId missing from SNS message.")
  else if jsFalsy msg.LifecycleHookName || jsFalsy msg.AutoScalingGroupName then
    ([], Except.error "Lifecycle details missing from SNS message.")
  else secretStep env

/-- Value of the mutable `lifecycleActionResult` after the catch block:
if the try block threw, the variable keeps its 'ABANDON' default
(lines 86 and 217-219). -/
def resultOfTry : Except String String → String
  | Except.ok res => res
  | Except.error _ => "ABANDON"

/-- The exported lambda handler (lines 76-238): envelope parsing outside
the try block, the try/catch with the 'ABANDON' default, and the finally
block that attempts the CompleteLifecycleAction report exactly once
(swallowing a report failure). -/
def handler (env : Env) (event : LambdaEvent) : HandlerResult :=
  match parseEvent event with
  | Except.error e => HandlerResult.uncaught e
  | Except.ok snsMessage =>
    let r := tryBody env snsMessage
    HandlerResult.completed (resultOfTry r.2) (r.1 ++ [Effect.reportCall (resultOfTry r.2)])

/-! ### Derived environments and failure predicates used by the claims -/

/-- The secret fetch of lines 99-111 fails: the GetSecretValue call
throws, or no SecretString is returned, or the SecretString is not valid
JSON, or the parsed JSON has no truthy `secret` key. -/
def secretFetchFailed (env : Env) : Prop :=
  (∃ e, env.secretFetch = Except.error e) ∨
  (∃ out, env.secretFetch = Except.ok out ∧
    (out.SecretString = none ∨ out.SecretString = some SecretStringParse.malformed ∨
     ∃ so, out.SecretString = some (SecretStringParse.parsed so) ∧ jsFalsy so = true))

/-- The inventory lookup of lines 114-127 returns no usable record: the
DescribeInstances call throws, or its output has no reservation or no
instance. -/
def inventoryNoRecord (env : Env) : Prop :=
  (∃ e, env.describeInstances = Except.error e) ∨
  (∃ out, env.describeInstances = Except.ok out ∧
    (out.Reservations = none ∨ out.Reservations = some [] ∨
     ∃ res0 rest, out.Reservations = some (res0 :: rest) ∧
       (res0.Instances = none ∨ res0.Instances = some [])))

/-- An environment in which every external call succeeds: the secret
store returns `sharedSecret`, the inventory resolves the instance to
`dns`, the registry lists `registry`, and deletion succeeds with the
JSON `status: "ok"` answer. -/
def healthyEnv (base sharedSecret dns : String) (registry : List ScaleliteServer) : Env :=
  { SCALELITE_API_BASE_URL := base
    secretFetch := Except.ok ⟨some (SecretStringParse.parsed (some sharedSecret))⟩
    describeInstances := Except.ok ⟨some [⟨some [⟨some dns⟩]⟩]⟩
    getServers := Except.ok ⟨200, ⟨some "ok", some registry⟩⟩
    deleteServer := Except.ok ⟨200, DeleteResponseData.obj (some "ok")⟩
    completeLifecycle := Except.ok () }

/-- A well-formed notification event carrying instance `i-1`. -/
def goodEvent : LambdaEvent :=
  ⟨[⟨Except.ok ⟨some "i-1", some "H", some "G"⟩⟩]⟩

/-- A healthy environment except that the inventory answers with an empty
reservation list: the instance is already gone from the compute pool. -/
def inventoryGoneEnv : Env :=
  { healthyEnv "http://scalelite/api" "abc" "node-1.internal"
      [⟨"42", "node-1", "http://node-1.internal/bigbluebutton/api", "s"⟩] with
    describeInstances := Except.ok ⟨some []⟩ }

/-- A one-entry registry whose url is the API URL of `node-1.internal`. -/
def demoRegistry : List ScaleliteServer :=
  [⟨"42", "node-1", "http://node-1.internal/bigbluebutton/api", "s1"⟩]

/-- Healthy environment whose secret fetch throws. -/
def secretDownEnv : Env :=
  { healthyEnv "http://scalelite/api" "abc" "node-1.internal" demoRegistry with
    secretFetch := Except.error "SecretsManager unavailable" }

/-- Healthy environment whose secret fetch returns no SecretString. -/
def noSecretStringEnv : Env :=
  { healthyEnv "http://scalelite/api" "abc" "node-1.internal" demoRegistry with
    secretFetch := Except.ok ⟨none⟩ }

/-- Healthy environment whose delete call throws an axios 404. -/
def delete404Env : Env :=
  { healthyEnv "http://scalelite/api" "abc" "node-1.internal" demoRegistry with
    deleteServer := Except.error ⟨true, some 404⟩ }

/-- Healthy environment with a matching registry entry and a JSON-ok
delete response. -/
def deleteOkEnv : Env :=
  healthyEnv "http://scalelite/api" "abc" "node-1.internal" demoRegistry

/-- An event carrying two records, for the first-record-only claim. -/
def twoRecordEvent : LambdaEvent :=
  ⟨[⟨Except.ok ⟨some "i-1", some "H", some "G"⟩⟩,
    ⟨Except.ok ⟨some "i-2", some "H", some "G"⟩⟩]⟩

/-! ### Structural lemmas about the handler steps -/

theorem handler_eq_completed (env : Env) (event : LambdaEvent) (msg : SNSEventRecordMessage)
    (hp : parseEvent event = Except.ok msg) :
    handler env event = HandlerResult.completed (resultOfTry (tryBody env msg).2)
      ((tryBody env msg).1 ++ [Effect.reportCall (resultOfTry (tryBody env msg).2)]) := by
  simp only [handler, hp]

theorem deleteStep_fst (env : Env) (s id : String) (fx1 : List Effect) :
    ∃ u b, (deleteStep env s id fx1).1 = fx1 ++ [Effect.deleteServerCall u b] := by
  simp only [deleteStep]
  split
  · exact ⟨_, _, rfl⟩
  · split
    · exact ⟨_, _, rfl⟩
    · exact ⟨_, _, rfl⟩

theorem deleteStep_snd_ok (env : Env) (s id : String) (fx1 : List Effect) (resp : DeleteResponse)
    (h : env.deleteServer = Except.ok resp) :
    (deleteStep env s id fx1).2 = Except.ok (deleteServerOutcome resp) := by
  simp only [deleteStep, h]

theorem deleteStep_snd_err404 (env : Env) (s id : String) (fx1 : List Effect)
    (e : DeleteCallError) (h : env.deleteServer = Except.error e)
    (hax : e.isAxiosError = true) (h404 : e.responseStatus = some 404) :
    (deleteStep env s id fx1).2 = Except.ok "CONTINUE" := by
  simp only [deleteStep, h, hax, h404]
  simp

theorem deleteStep_snd_errOther (env : Env) (s id : String) (fx1 : List Effect)
    (e : DeleteCallError) (h : env.deleteServer = Except.error e)
    (hn : ¬(e.isAxiosError = true ∧ e.responseStatus = some 404)) :
    ∃ er, (deleteStep env s id fx1).2 = Except.error er := by
  have hb : (e.isAxiosError && e.responseStatus == some 404) = false := by
    rcases Bool.eq_false_or_eq_true (e.isAxiosError && e.responseStatus == some 404) with hb | hb
    · rw [Bool.and_eq_true, beq_iff_eq] at hb
      exact absurd hb hn
    · exact hb
  simp only [deleteStep, h, hb]
  exact ⟨_, rfl⟩

theorem registryStep_shape (env : Env) (s url : String) :
    (∃ u er, registryStep env s url = ([Effect.getServersCall u], Except.error er)) ∨
    (∃ u, registryStep env s url = ([Effect.getServersCall u], Except.ok "CONTINUE")) ∨
    (∃ u id, registryStep env s url = deleteStep env s id [Effect.getServersCall u]) := by
  simp only [registryStep]
  split
  · exact Or.inl ⟨_, _, rfl⟩
  · split
    · exact Or.inl ⟨_, _, rfl⟩
    · split
      · exact Or.inr (Or.inl ⟨_, rfl⟩)
      · exact Or.inr (Or.inr ⟨_, _, rfl⟩)

theorem registryStep_error_of_getServers_error (env : Env) (s url : String) (e : String)
    (h : env.getServers = Except.error e) :
    ∃ u er, registryStep env s url = ([Effect.getServersCall u], Except.error er) := by
  simp only [registryStep, h]
  exact ⟨_, _, rfl⟩

theorem secretStep_shape (env : Env) :
    (∃ er, secretStep env = ([], Except.error er)) ∨
    (∃ s, secretStep env = ec2Step env s) := by
  simp only [secretStep]
  split
  · exact Or.inl ⟨_, rfl⟩
  · split
    · exact Or.inl ⟨_, rfl⟩
    · exact Or.inl ⟨_, rfl⟩
    · split
      · exact Or.inl ⟨_, rfl⟩
      · exact Or.inr ⟨_, rfl⟩

theorem secretStep_error_of_failed (env : Env) (hf : secretFetchFailed env) :
    ∃ er, secretStep env = ([], Except.error er) := by
  rcases hf with ⟨e, he⟩ | ⟨out, hout, hcase⟩
  · simp only [secretStep, he]
    exact ⟨_, rfl⟩
  · rcases hcase with h1 | h1 | ⟨so, h1, h2⟩
    · simp only [secretStep, hout, h1]
      exact ⟨_, rfl⟩
    · simp only [secretStep, hout, h1]
      exact ⟨_, rfl⟩
    · simp only [secretStep, hout, h1, h2, if_pos]
      exact ⟨_, rfl⟩

theorem ec2Step_shape (env : Env) (s : String) :
    (∃ er, ec2Step env s = ([], Except.error er)) ∨
    (∃ url, ec2Step env s = registryStep env s url) := by
  simp only [ec2Step]
  split
  · exact Or.inl ⟨_, rfl⟩
  · split
    · exact Or.inl ⟨_, rfl⟩
    · exact Or.inl ⟨_, rfl⟩
    · split
      · exact Or.inl ⟨_, rfl⟩
      · exact Or.inl ⟨_, rfl⟩
      · split
        · exact Or.inl ⟨_, rfl⟩
        · exact Or.inr ⟨_, rfl⟩

theorem ec2Step_error_of_noRecord (env : Env) (s : String) (h : inventoryNoRecord env) :
    ∃ er, ec2Step env s = ([], Except.error er) := by
  rcases h with ⟨e, he⟩ | ⟨out, hout, hcase⟩
  · simp only [ec2Step, he]
    exact ⟨_, rfl⟩
  · rcases hcase with h1 | h1 | ⟨res0, rest, h1, h2 | h2⟩ <;>
      simp only [ec2Step, hout, h1] <;>
      first
        | exact ⟨_, rfl⟩
        | (simp only [h2]; exact ⟨_, rfl⟩)

theorem tryBody_shape_secret (env : Env) (msg : SNSEventRecordMessage) :
    (∃ er, tryBody env msg = ([], Except.error er)) ∨
    tryBody env msg = secretStep env := by
  rw [tryBody]
  split
  · exact Or.inl ⟨_, rfl⟩
  · split
    · exact Or.inl ⟨_, rfl⟩
    · exact Or.inr rfl

theorem tryBody_shape (env : Env) (msg : SNSEventRecordMessage) :
    (∃ er, tryBody env msg = ([], Except.error er)) ∨
    (∃ s url, tryBody env msg = registryStep env s url) := by
  rcases tryBody_shape_secret env msg with ⟨er, h⟩ | h
  · exact Or.inl ⟨er, h⟩
  · rcases secretStep_shape env with ⟨er, h2⟩ | ⟨s, h2⟩
    · exact Or.inl ⟨er, h.trans h2⟩
    · rcases ec2Step_shape env s with ⟨er, h3⟩ | ⟨url, h3⟩
      · exact Or.inl ⟨er, (h.trans h2).trans h3⟩
      · exact Or.inr ⟨s, url, (h.trans h2).trans h3⟩

/-! ### Lemmas about the registry entry matching -/

theorem findServerId_sound (url id : String) :
    ∀ servers : List ScaleliteServer, findServerId servers url = some id →
      ∃ s, s ∈ servers ∧ s.id = id ∧ s.url = url := by
  intro servers
  induction servers with
  | nil =>
    intro h
    simp [findServerId] at h
  | cons a rest ih =>
    intro h
    rw [findServerId] at h
    by_cases ha : (a.url == url) = true
    · rw [if_pos ha] at h
      exact ⟨a, List.mem_cons_self a rest, Option.some_inj.mp h, eq_of_beq ha⟩
    · rw [if_neg ha] at h
      obtain ⟨s, hs, h1, h2⟩ := ih h
      exact ⟨s, List.mem_cons_of_mem _ hs, h1, h2⟩

theorem findServerId_none (url : String) :
    ∀ servers : List ScaleliteServer,
      findServerId servers url = none ↔ ∀ s ∈ servers, s.url ≠ url := by
  intro servers
  induction servers with
  | nil => simp [findServerId]
  | cons a rest ih =>
    rw [findServerId]
    by_cases ha : (a.url == url) = true
    · rw [if_pos ha]
      constructor
      · intro h
        cases h
      · intro h
        exact absurd (eq_of_beq ha) (h a (List.mem_cons_self a rest))
    · rw [if_neg ha, ih]
      constructor
      · intro h s hs
        rcases List.mem_cons.mp hs with rfl | hs2
        · intro hu
          exact ha (beq_iff_eq.mpr hu)
        · exact h s hs2
      · intro h s hs
        exact h s (List.mem_cons_of_mem _ hs)

theorem findServerId_isSome (url : String) (servers : List ScaleliteServer)
    (s : ScaleliteServer) (hs : s ∈ servers) (hurl : s.url = url) :
    (findServerId servers url).isSome = true := by
  cases hfind : findServerId servers url with
  | some _ => rfl
  | none => exact absurd hurl ((findServerId_none url servers).mp hfind s hs)

/-! ### Lemmas about the sorted query string -/

theorem find?_key_congr (p1 p2 : List (String × String)) (hperm : p1.Perm p2)
    (hnd : (p1.map Prod.fst).Nodup) (k : String) :
    p1.find? (fun kv => kv.1 == k) = p2.find? (fun kv => kv.1 == k) := by
  cases h1 : p1.find? (fun kv => kv.1 == k) with
  | none =>
    rw [List.find?_eq_none] at h1
    symm
    rw [List.find?_eq_none]
    intro x hx
    exact h1 x (hperm.symm.subset hx)
  | some kv =>
    have hkv1 : kv ∈ p1 := List.mem_of_find?_eq_some h1
    have hpredA := List.find?_some h1
    have hpred : (kv.1 == k) = true := hpredA
    cases h2 : p2.find? (fun kv => kv.1 == k) with
    | none =>
      rw [List.find?_eq_none] at h2
      exact absurd hpred (h2 kv (hperm.subset hkv1))
    | some kv2 =>
      have hkv2 : kv2 ∈ p1 := hperm.symm.subset (List.mem_of_find?_eq_some h2)
      have hpredB := List.find?_some h2
      have hpred2 : (kv2.1 == k) = true := hpredB
      have : kv = kv2 :=
        List.inj_on_of_nodup_map hnd hkv1 hkv2 (by rw [eq_of_beq hpred, eq_of_beq hpred2])
      rw [this]

theorem lookupParam_congr (p1 p2 : List (String × String)) (hperm : p1.Perm p2)
    (hnd : (p1.map Prod.fst).Nodup) (k : String) :
    lookupParam p1 k = lookupParam p2 k := by
  rw [lookupParam, lookupParam, find?_key_congr p1 p2 hperm hnd k]

theorem sortedKeys_congr (l1 l2 : List String) (hperm : l1.Perm l2) :
    l1.insertionSort (fun a b => a ≤ b) = l2.insertionSort (fun a b => a ≤ b) :=
  List.eq_of_perm_of_sorted
    ((List.perm_insertionSort _ l1).trans (hperm.trans (List.perm_insertionSort _ l2).symm))
    (List.sorted_insertionSort _ l1) (List.sorted_insertionSort _ l2)

theorem getSortedQueryString_congr (p1 p2 : List (String × String)) (hperm : p1.Perm p2)
    (hnd : (p1.map Prod.fst).Nodup) :
    getSortedQueryString p1 = getSortedQueryString p2 := by
  rw [getSortedQueryString, getSortedQueryString]
  by_cases h1 : p1.isEmpty
  · have h2 : p2.isEmpty := by
      rw [List.isEmpty_iff] at h1 ⊢
      have hrev := hperm.symm
      rw [h1] at hrev
      exact hrev.eq_nil
    rw [if_pos h1, if_pos h2]
  · have h2 : ¬p2.isEmpty = true := by
      rw [List.isEmpty_iff] at h1 ⊢
      intro hnil
      have hfwd := hperm
      rw [hnil] at hfwd
      exact h1 hfwd.eq_nil
    rw [if_neg h1, if_neg h2]
    dsimp only
    rw [sortedKeys_congr (p1.map Prod.fst) (p2.map Prod.fst) (hperm.map _)]
    refine congrArg (String.intercalate "&") (List.map_congr_left ?_)
    intro k _hk
    rw [lookupParam_congr p1 p2 hperm hnd k]

/-! ### Plumbing between the handler and the step lemmas -/

theorem handler_outcome_abandon_of_error (env : Env) (event : LambdaEvent)
    (msg : SNSEventRecordMessage) (hp : parseEvent event = Except.ok msg) (er : String)
    (h2 : (tryBody env msg).2 = Except.error er) :
    (handler env event).outcome = some "ABANDON" := by
  rw [handler_eq_completed env event msg hp]
  simp [HandlerResult.outcome, h2, resultOfTry]

theorem handler_outcome_of_ok (env : Env) (event : LambdaEvent)
    (msg : SNSEventRecordMessage) (hp : parseEvent event = Except.ok msg) (r : String)
    (h2 : (tryBody env msg).2 = Except.ok r) :
    (handler env event).outcome = some r := by
  rw [handler_eq_completed env event msg hp]
  simp [HandlerResult.outcome, h2, resultOfTry]

theorem tryBody_empty_of_secretFailed (env : Env) (msg : SNSEventRecordMessage)
    (hf : secretFetchFailed env) :
    ∃ er, tryBody env msg = ([], Except.error er) := by
  rcases tryBody_shape_secret env msg with ⟨er, heq⟩ | heq
  · exact ⟨er, heq⟩
  · obtain ⟨er, h2⟩ := secretStep_error_of_failed env hf
    exact ⟨er, heq.trans h2⟩

theorem tryBody_empty_of_noRecord (env : Env) (msg : SNSEventRecordMessage)
    (h : inventoryNoRecord env) :
    ∃ er, tryBody env msg = ([], Except.error er) := by
  rcases tryBody_shape_secret env msg with ⟨er, heq⟩ | heq
  · exact ⟨er, heq⟩
  · rcases secretStep_shape env with ⟨er, h2⟩ | ⟨s, h2⟩
    · exact ⟨er, heq.trans h2⟩
    · obtain ⟨er, h3⟩ := ec2Step_error_of_noRecord env s h
      exact ⟨er, (heq.trans h2).trans h3⟩

theorem tryBody_error_of_getServers_error (env : Env) (msg : SNSEventRecordMessage)
    (e : String) (h : env.getServers = Except.error e) :
    ∃ er, (tryBody env msg).2 = Except.error er := by
  rcases tryBody_shape env msg with ⟨er, heq⟩ | ⟨s, url, heq⟩
  · exact ⟨er, by rw [heq]⟩
  · obtain ⟨u, er, h2⟩ := registryStep_error_of_getServers_error env s url e h
    exact ⟨er, by rw [heq, h2]⟩

theorem tryBody_reaches_delete (env : Env) (msg : SNSEventRecordMessage)
    (hcall : (tryBody env msg).1.any Effect.isDeleteCall = true) :
    ∃ s id u, tryBody env msg = deleteStep env s id [Effect.getServersCall u] := by
  rcases tryBody_shape env msg with ⟨er, heq⟩ | ⟨s, url, heq⟩
  · rw [heq] at hcall
    simp at hcall
  · rcases registryStep_shape env s url with ⟨u, er, hr⟩ | ⟨u, hr⟩ | ⟨u, id, hr⟩
    · rw [heq, hr] at hcall
      simp [Effect.isDeleteCall] at hcall
    · rw [heq, hr] at hcall
      simp [Effect.isDeleteCall] at hcall
    · exact ⟨s, id, u, heq.trans hr⟩

theorem handler_effects_delete (env : Env) (event : LambdaEvent)
    (msg : SNSEventRecordMessage) (hp : parseEvent event = Except.ok msg)
    (hcall : (handler env event).effects.any Effect.isDeleteCall = true) :
    (tryBody env msg).1.any Effect.isDeleteCall = true := by
  rw [handler_eq_completed env event msg hp] at hcall
  simpa [HandlerResult.effects, List.any_append, Effect.isDeleteCall] using hcall

theorem deleteServerOutcome_continue_iff (resp : DeleteResponse) :
    deleteServerOutcome resp = "CONTINUE" ↔
      (resp.status = 200 ∧ resp.data = DeleteResponseData.obj (some "ok")) ∨
      (resp.status = 200 ∧ ∃ s, resp.data = DeleteResponseData.str s ∧
        strIncludes s "<returncode>SUCCESS</returncode>" = true) := by
  obtain ⟨st, d⟩ := resp
  cases d with
  | obj os =>
    simp only [deleteServerOutcome]
    by_cases hc : (st == 200 && os == some "ok") = true
    · rw [if_pos hc]
      rw [Bool.and_eq_true, beq_iff_eq, beq_iff_eq] at hc
      simp [hc]
    · rw [if_neg hc]
      constructor
      · intro habs
        exact absurd habs (by decide)
      · rintro (⟨hs, hd⟩ | ⟨hs, s2, hd, _⟩)
        · injection hd with hd2
          exact absurd (by rw [Bool.and_eq_true, beq_iff_eq, beq_iff_eq]; exact ⟨hs, hd2⟩) hc
        · cases hd
  | str s2 =>
    simp only [deleteServerOutcome]
    by_cases hc : (st == 200 && strIncludes s2 "<returncode>SUCCESS</returncode>") = true
    · rw [if_pos hc]
      rw [Bool.and_eq_true, beq_iff_eq] at hc
      simp [hc]
    · rw [if_neg hc]
      constructor
      · intro habs
        exact absurd habs (by decide)
      · rintro (⟨hs, hd⟩ | ⟨hs, s3, hd, hinc⟩)
        · cases hd
        · injection hd with hd2
          subst hd2
          exact absurd (by rw [Bool.and_eq_true, beq_iff_eq]; exact ⟨hs, hinc⟩) hc

/-! ### Behaviour of the handler in a fully healthy environment -/

theorem tryBody_healthy (base secret dns : String) (registry : List ScaleliteServer)
    (msg : SNSEventRecordMessage)
    (h1 : jsFalsy msg.EC2InstanceId = false) (h2 : jsFalsy msg.LifecycleHookName = false)
    (h3 : jsFalsy msg.AutoScalingGroupName = false)
    (hsec : secret ≠ "") (hdns : dns ≠ "") :
    tryBody (healthyEnv base secret dns registry) msg =
      registryStep (healthyEnv base secret dns registry) secret
        ("http://" ++ dns ++ "/bigbluebutton/api") := by
  have hsecb : jsFalsy (some secret) = false := by
    simp [jsFalsy, beq_eq_false_iff_ne.mpr hsec]
  have hdnsb : jsFalsy (some dns) = false := by
    simp [jsFalsy, beq_eq_false_iff_ne.mpr hdns]
  simp [tryBody, h1, h2, h3, secretStep, healthyEnv, hsecb, ec2Step, hdnsb]

theorem registryStep_healthy_matched (base secret dns url id0 : String)
    (registry : List ScaleliteServer)
    (hmatch : findServerId registry url = some id0) :
    (registryStep (healthyEnv base secret dns registry) secret url).2 = Except.ok "CONTINUE" := by
  simp [registryStep, healthyEnv, hmatch, deleteStep, deleteServerOutcome]

theorem registryStep_healthy_unmatched (base secret dns url : String)
    (registry : List ScaleliteServer)
    (hmatch : findServerId registry url = none) :
    (registryStep (healthyEnv base secret dns registry) secret url).2 = Except.ok "CONTINUE" := by
  simp [registryStep, healthyEnv, hmatch]

/-! ### The claims -/

/-- C1: for every execution whose envelope parses, the handler never lets
an error escape, and an exception thrown by the secret fetch, by the
registry listing, or by a performed deletion call (other than the benign
axios 404) leaves the reported outcome at ABANDON — never CONTINUE. -/
theorem claim_c1_fail_safe_abandon (env : Env) (event : LambdaEvent)
    (msg : SNSEventRecordMessage) (hp : parseEvent event = Except.ok msg) :
    (∃ r tr, handler env event = HandlerResult.completed r tr) ∧
    (∀ e, env.secretFetch = Except.error e →
      (handler env event).outcome = some "ABANDON") ∧
    (∀ e, env.getServers = Except.error e →
      (handler env event).outcome = some "ABANDON") ∧
    (∀ e, env.deleteServer = Except.error e →
      ¬(e.isAxiosError = true ∧ e.responseStatus = some 404) →
      (handler env event).effects.any Effect.isDeleteCall = true →
      (handler env event).outcome = some "ABANDON") := by
  refine ⟨⟨_, _, handler_eq_completed env event msg hp⟩, ?_, ?_, ?_⟩
  · intro e he
    obtain ⟨er, h2⟩ := tryBody_empty_of_secretFailed env msg (Or.inl ⟨e, he⟩)
    exact handler_outcome_abandon_of_error env event msg hp er (by rw [h2])
  · intro e he
    obtain ⟨er, h2⟩ := tryBody_error_of_getServers_error env msg e he
    exact handler_outcome_abandon_of_error env event msg hp er h2
  · intro e he hne hcall
    obtain ⟨s, id, u, heq⟩ :=
      tryBody_reaches_delete env msg (handler_effects_delete env event msg hp hcall)
    obtain ⟨er, h3⟩ := deleteStep_snd_errOther env s id _ e he hne
    exact handler_outcome_abandon_of_error env event msg hp er (by rw [heq, h3])

/-- C2 (amended): when the inventory lookup returns no record for the
instance, the code throws and the fail-safe default applies: the outcome
is ABANDON — not CONTINUE — and the registry is never contacted in that
run. -/
theorem claim_c2_not_found_abandons (env : Env) (event : LambdaEvent)
    (msg : SNSEventRecordMessage) (hp : parseEvent event = Except.ok msg)
    (h : inventoryNoRecord env) :
    (handler env event).outcome = some "ABANDON" ∧
    (handler env event).effects.any Effect.isRegistryCall = false := by
  obtain ⟨er, heq⟩ := tryBody_empty_of_noRecord env msg h
  constructor
  · exact handler_outcome_abandon_of_error env event msg hp er (by rw [heq])
  · rw [handler_eq_completed env event msg hp]
    simp [HandlerResult.effects, heq, Effect.isRegistryCall, resultOfTry]

/-- C2 (counterexample to the claim as stated): with a healthy registry
and secret store but an inventory that has no record of the instance, the
outcome is ABANDON, not the CONTINUE the claim asserts. -/
theorem claim_c2_counterexample :
    inventoryNoRecord inventoryGoneEnv ∧
    (handler inventoryGoneEnv goodEvent).outcome = some "ABANDON" ∧
    (handler inventoryGoneEnv goodEvent).outcome ≠ some "CONTINUE" := by
  refine ⟨Or.inr ⟨_, rfl, Or.inr (Or.inl rfl)⟩, ?_, ?_⟩ <;> decide

/-- C5: in a run that matched a registry entry and performed the delete
call, a delete that fails with an axios error carrying HTTP status 404 is
treated as already-deleted: the outcome is CONTINUE, not ABANDON. -/
theorem claim_c5_delete404_continue (env : Env) (event : LambdaEvent)
    (msg : SNSEventRecordMessage) (e : DeleteCallError)
    (hp : parseEvent event = Except.ok msg)
    (he : env.deleteServer = Except.error e) (hax : e.isAxiosError = true)
    (h404 : e.responseStatus = some 404)
    (hcall : (handler env event).effects.any Effect.isDeleteCall = true) :
    (handler env event).outcome = some "CONTINUE" := by
  obtain ⟨s, id, u, heq⟩ :=
    tryBody_reaches_delete env msg (handler_effects_delete env event msg hp hcall)
  refine handler_outcome_of_ok env event msg hp "CONTINUE" ?_
  rw [heq]
  exact deleteStep_snd_err404 env s id _ e he hax h404

/-- C7: whenever the shared-secret fetch fails (the call throws, no
SecretString is returned, the SecretString is not valid JSON, or the
`secret` key is absent), the outcome is ABANDON and no request at all is
sent to the registry in that run. -/
theorem claim_c7_secret_failure_abandons (env : Env) (event : LambdaEvent)
    (msg : SNSEventRecordMessage) (hp : parseEvent event = Except.ok msg)
    (hf : secretFetchFailed env) :
    (handler env event).outcome = some "ABANDON" ∧
    (handler env event).effects.any Effect.isRegistryCall = false := by
  obtain ⟨er, heq⟩ := tryBody_empty_of_secretFailed env msg hf
  constructor
  · exact handler_outcome_abandon_of_error env event msg hp er (by rw [heq])
  · rw [handler_eq_completed env event msg hp]
    simp [HandlerResult.effects, heq, Effect.isRegistryCall, resultOfTry]

/-- C9: in a run that performed the delete call, a response that arrived
without an exception yields CONTINUE exactly when it is HTTP 200 with a
JSON body whose status field is "ok", or HTTP 200 with a string body
containing the literal substring <returncode>SUCCESS</returncode>; and a
thrown delete error other than the axios 404 leaves the outcome ABANDON. -/
theorem claim_c9_delete_success_judgment (env : Env) (event : LambdaEvent)
    (msg : SNSEventRecordMessage) (hp : parseEvent event = Except.ok msg)
    (hcall : (handler env event).effects.any Effect.isDeleteCall = true) :
    (∀ resp, env.deleteServer = Except.ok resp →
      ((handler env event).outcome = some "CONTINUE" ↔
        (resp.status = 200 ∧ resp.data = DeleteResponseData.obj (some "ok")) ∨
        (resp.status = 200 ∧ ∃ s, resp.data = DeleteResponseData.str s ∧
          strIncludes s "<returncode>SUCCESS</returncode>" = true))) ∧
    (∀ e, env.deleteServer = Except.error e →
      ¬(e.isAxiosError = true ∧ e.responseStatus = some 404) →
      (handler env event).outcome = some "ABANDON") := by
  obtain ⟨s, id, u, heq⟩ :=
    tryBody_reaches_delete env msg (handler_effects_delete env event msg hp hcall)
  constructor
  · intro resp hresp
    have hout : (handler env event).outcome = some (deleteServerOutcome resp) := by
      refine handler_outcome_of_ok env event msg hp _ ?_
      rw [heq]
      exact deleteStep_snd_ok env s id _ resp hresp
    rw [hout]
    simp only [Option.some.injEq]
    exact deleteServerOutcome_continue_iff resp
  · intro e he hne
    obtain ⟨er, h3⟩ := deleteStep_snd_errOther env s id _ e he hne
    exact handler_outcome_abandon_of_error env event msg hp er (by rw [heq, h3])

/-- C3: against a healthy environment, a run that matches and deletes the
node's registry entry reports CONTINUE; after that deletion has removed
the entry from the registry (urls being unique per entry), a redelivered
run finds no matching entry, takes the unmatched branch, and reports
CONTINUE again — it never errors. -/
theorem claim_c3_idempotent_redelivery (base secret dns : String)
    (registry : List ScaleliteServer) (event : LambdaEvent)
    (msg : SNSEventRecordMessage) (id0 : String)
    (hp : parseEvent event = Except.ok msg)
    (h1 : jsFalsy msg.EC2InstanceId = false) (h2 : jsFalsy msg.LifecycleHookName = false)
    (h3 : jsFalsy msg.AutoScalingGroupName = false)
    (hsec : secret ≠ "") (hdns : dns ≠ "")
    (hurls : (registry.map ScaleliteServer.url).Nodup)
    (hmatch : findServerId registry ("http://" ++ dns ++ "/bigbluebutton/api") = some id0) :
    (handler (healthyEnv base secret dns registry) event).outcome = some "CONTINUE" ∧
    findServerId (registry.filter (fun s => !(s.id == id0)))
      ("http://" ++ dns ++ "/bigbluebutton/api") = none ∧
    (handler (healthyEnv base secret dns (registry.filter (fun s => !(s.id == id0)))) event).outcome
      = some "CONTINUE" := by
  obtain ⟨s0, hs0, hid0, hurl0⟩ := findServerId_sound _ id0 registry hmatch
  have hnone : findServerId (registry.filter (fun s => !(s.id == id0)))
      ("http://" ++ dns ++ "/bigbluebutton/api") = none := by
    rw [findServerId_none]
    intro s hs hu
    have hmem := List.mem_filter.mp hs
    have hss0 : s = s0 :=
      List.inj_on_of_nodup_map hurls hmem.1 hs0 (by rw [hu, hurl0])
    rw [hss0, hid0] at hmem
    simp at hmem
  refine ⟨?_, hnone, ?_⟩
  · refine handler_outcome_of_ok _ event msg hp "CONTINUE" ?_
    rw [tryBody_healthy base secret dns registry msg h1 h2 h3 hsec hdns]
    exact registryStep_healthy_matched base secret dns _ id0 registry hmatch
  · refine handler_outcome_of_ok _ event msg hp "CONTINUE" ?_
    rw [tryBody_healthy base secret dns _ msg h1 h2 h3 hsec hdns]
    exact registryStep_healthy_unmatched base secret dns _ _ hnone

/-- C4: the registry entry scan matches on exact, case-sensitive string
equality of the entry url with the constructed API URL: a selected
internalId always belongs to an entry whose url equals the URL
character-for-character, and whenever some entry has exactly that url an
entry is selected. -/
theorem claim_c4_matching_exact (servers : List ScaleliteServer) (url : String) :
    (∀ id, findServerId servers url = some id →
      ∃ s, s ∈ servers ∧ s.id = id ∧ s.url = url) ∧
    ((∃ s, s ∈ servers ∧ s.url = url) → (findServerId servers url).isSome = true) :=
  ⟨fun id h => findServerId_sound url id servers h,
   fun ⟨s, hs, hurl⟩ => findServerId_isSome url servers s hs hurl⟩

/-- C6: the checksum is the hex-encoded SHA-1 of the action name, the
lexicographically key-sorted query string, the request body, and the
shared secret concatenated in that order, and for a fixed parameter set
(association lists that are permutations of each other, keys distinct) it
does not depend on the order in which the parameters were supplied. -/
theorem claim_c6_checksum_deterministic (action body secret : String)
    (p1 p2 : List (String × String)) (hperm : p1.Perm p2)
    (hnd : (p1.map Prod.fst).Nodup) :
    calculateChecksum action (getSortedQueryString p1) body secret
      = sha1Hex (action ++ getSortedQueryString p1 ++ body ++ secret) ∧
    calculateChecksum action (getSortedQueryString p1) body secret
      = calculateChecksum action (getSortedQueryString p2) body secret :=
  ⟨rfl, by rw [getSortedQueryString_congr p1 p2 hperm hnd]⟩

/-- C8 (amended): for every event whose envelope parsing succeeds
(Records[0].Sns.Message exists and is valid JSON), the handler runs to
completion — even when fields inside the message are missing — and the
lifecycle-completion report is attempted exactly once, carrying the
computed outcome.  (The unamended claim fails for events whose envelope
itself is malformed: that parsing happens before the try block.) -/
theorem claim_c8_report_exactly_once (env : Env) (event : LambdaEvent)
    (msg : SNSEventRecordMessage) (hp : parseEvent event = Except.ok msg) :
    ∃ r tr, handler env event = HandlerResult.completed r tr ∧
      tr.filter Effect.isReportCall = [Effect.reportCall r] := by
  refine ⟨_, _, handler_eq_completed env event msg hp, ?_⟩
  rw [List.filter_append]
  have hnorep : (tryBody env msg).1.filter Effect.isReportCall = [] := by
    rcases tryBody_shape env msg with ⟨er, heq⟩ | ⟨s, url, heq⟩
    · rw [heq]
      rfl
    · rcases registryStep_shape env s url with ⟨u, er, hr⟩ | ⟨u, hr⟩ | ⟨u, id, hr⟩
      · rw [heq, hr]
        simp [Effect.isReportCall]
      · rw [heq, hr]
        simp [Effect.isReportCall]
      · obtain ⟨u2, b2, hfst⟩ := deleteStep_fst env s id [Effect.getServersCall u]
        rw [heq, hr, hfst]
        simp [Effect.isReportCall]
  rw [hnorep]
  simp [Effect.isReportCall]

/-- C8 (counterexample to the claim as stated): an event with an empty
Records array makes line 79 throw before the try block: the exception
escapes the handler uncaught and no completion report is attempted. -/
theorem claim_c8_counterexample :
    handler inventoryGoneEnv ⟨[]⟩ =
      HandlerResult.uncaught "TypeError: cannot read Records[0].Sns of undefined" ∧
    (handler inventoryGoneEnv ⟨[]⟩).effects.any Effect.isReportCall = false :=
  ⟨rfl, rfl⟩

/-- C10: the handler only ever processes the first record of the event's
Records array — its entire observable behaviour coincides with the run on
the event containing that first record alone, so later records trigger no
reconciliation and no completion report of their own. -/
theorem claim_c10_first_record_only (env : Env) (event : LambdaEvent)
    (r : SnsRecord) (rest : List SnsRecord) (h : event.records = r :: rest) :
    handler env event = handler env ⟨[r]⟩ := by
  have hp : parseEvent event = parseEvent ⟨[r]⟩ := by
    rw [parseEvent, parseEvent, h]
  rw [handler, handler, hp]

/-! ### Witnesses: each hypothesis-bearing claim theorem applied at a
concrete input -/

theorem claim_c1_fail_safe_abandon_witness :
    (handler secretDownEnv goodEvent).outcome = some "ABANDON" :=
  (claim_c1_fail_safe_abandon secretDownEnv goodEvent ⟨some "i-1", some "H", some "G"⟩ rfl).2.1
    "SecretsManager unavailable" rfl

theorem claim_c2_not_found_abandons_witness :
    (handler inventoryGoneEnv goodEvent).outcome = some "ABANDON" ∧
    (handler inventoryGoneEnv goodEvent).effects.any Effect.isRegistryCall = false :=
  claim_c2_not_found_abandons inventoryGoneEnv goodEvent ⟨some "i-1", some "H", some "G"⟩ rfl
    (Or.inr ⟨⟨some []⟩, rfl, Or.inr (Or.inl rfl)⟩)

theorem claim_c3_idempotent_redelivery_witness :
    (handler (healthyEnv "http://scalelite/api" "abc" "node-1.internal" demoRegistry)
        goodEvent).outcome = some "CONTINUE" ∧
    findServerId (demoRegistry.filter (fun s => !(s.id == "42")))
      ("http://" ++ "node-1.internal" ++ "/bigbluebutton/api") = none ∧
    (handler (healthyEnv "http://scalelite/api" "abc" "node-1.internal"
        (demoRegistry.filter (fun s => !(s.id == "42")))) goodEvent).outcome
      = some "CONTINUE" :=
  claim_c3_idempotent_redelivery "http://scalelite/api" "abc" "node-1.internal" demoRegistry
    goodEvent ⟨some "i-1", some "H", some "G"⟩ "42" rfl rfl rfl rfl (by decide) (by decide)
    (by decide) (by decide)

theorem claim_c4_matching_exact_witness :
    (∃ s, s ∈ ([⟨"43", "a", "http://node-123/bigbluebutton/api/", "x"⟩,
                ⟨"42", "b", "http://node-123/bigbluebutton/api", "y"⟩] : List ScaleliteServer) ∧
      s.id = "42" ∧ s.url = "http://node-123/bigbluebutton/api") ∧
    (findServerId [⟨"43", "a", "http://node-123/bigbluebutton/api/", "x"⟩,
                   ⟨"42", "b", "http://node-123/bigbluebutton/api", "y"⟩]
      "http://node-123/bigbluebutton/api").isSome = true :=
  ⟨(claim_c4_matching_exact _ "http://node-123/bigbluebutton/api").1 "42" (by decide),
   (claim_c4_matching_exact _ "http://node-123/bigbluebutton/api").2
     ⟨⟨"42", "b", "http://node-123/bigbluebutton/api", "y"⟩, by decide, rfl⟩⟩

theorem claim_c5_delete404_continue_witness :
    (handler delete404Env goodEvent).outcome = some "CONTINUE" :=
  claim_c5_delete404_continue delete404Env goodEvent ⟨some "i-1", some "H", some "G"⟩
    ⟨true, some 404⟩ rfl rfl rfl rfl (by decide)

theorem claim_c6_checksum_deterministic_witness :
    calculateChecksum "getServers" (getSortedQueryString [("b", "2"), ("a", "1")]) "" "abc"
      = sha1Hex ("getServers" ++ getSortedQueryString [("b", "2"), ("a", "1")] ++ "" ++ "abc") ∧
    calculateChecksum "getServers" (getSortedQueryString [("b", "2"), ("a", "1")]) "" "abc"
      = calculateChecksum "getServers" (getSortedQueryString [("a", "1"), ("b", "2")]) "" "abc" :=
  claim_c6_checksum_deterministic "getServers" "" "abc" [("b", "2"), ("a", "1")]
    [("a", "1"), ("b", "2")] (by decide) (by decide)

theorem claim_c7_secret_failure_abandons_witness :
    (handler noSecretStringEnv goodEvent).outcome = some "ABANDON" ∧
    (handler noSecretStringEnv goodEvent).effects.any Effect.isRegistryCall = false :=
  claim_c7_secret_failure_abandons noSecretStringEnv goodEvent
    ⟨some "i-1", some "H", some "G"⟩ rfl (Or.inr ⟨⟨none⟩, rfl, Or.inl rfl⟩)

theorem claim_c8_report_exactly_once_witness :
    ∃ r tr, handler inventoryGoneEnv goodEvent = HandlerResult.completed r tr ∧
      tr.filter Effect.isReportCall = [Effect.reportCall r] :=
  claim_c8_report_exactly_once inventoryGoneEnv goodEvent ⟨some "i-1", some "H", some "G"⟩ rfl

theorem claim_c9_delete_success_judgment_witness :
    (handler deleteOkEnv goodEvent).outcome = some "CONTINUE" :=
  ((claim_c9_delete_success_judgment deleteOkEnv goodEvent ⟨some "i-1", some "H", some "G"⟩ rfl
      (by decide)).1 ⟨200, DeleteResponseData.obj (some "ok")⟩ rfl).mpr
    (Or.inl ⟨rfl, rfl⟩)

theorem claim_c10_first_record_only_witness :
    handler inventoryGoneEnv twoRecordEvent =
      handler inventoryGoneEnv ⟨[⟨Except.ok ⟨some "i-1", some "H", some "G"⟩⟩]⟩ :=
  claim_c10_first_record_only inventoryGoneEnv twoRecordEvent
    ⟨Except.ok ⟨some "i-1", some "H", some "G"⟩⟩
    [⟨Except.ok ⟨some "i-2", some "H", some "G"⟩⟩] rfl
